import Mathlib

/-!
Verification of the zod-i18n issue-to-message mapping layer.

This file is a shallow embedding of three TypeScript source files:

* `src/unnamed/part_000` — the error-extraction helpers `getErrorMessage`
  and `getErrorMessageFromZodError`;
* `src/unnamed/part_001` — the richer mapper variant: `makeZodI18nMap`
  together with its local helpers (`joinValues`, `isRecord`,
  `getKeyAndValues`, `getReceivedDataType`);
* `src/packages/core/src/index.ts` — the simpler mapper variant, with its
  own (identical) `isRecord`/`getKeyAndValues` and its own `joinValues`.

Modelling conventions:

* JavaScript runtime values are the inductive `JsValue`.  JavaScript
  numbers are `JsNum` (NaN, the two infinities, or a finite rational);
  the decimal formatting JavaScript applies when printing a non-integer
  number is not reproduced (every value these theorems print is a string,
  an integer or a bigint).  Objects carry the constructor name used by
  `getReceivedDataType` (`none` = plain object literal); own enumerable
  fields are an association list, and prototype chains are not modelled.
* The i18next translation function `t` is an external collaborator; it is
  passed to the embedded mappers as an explicit argument of type `TFun`.
  Its options argument is a `Bag`, an insertion-ordered association list
  built exactly the way the JavaScript object literals build it
  (`setB` = property assignment, `spreadB` = object spread: an existing
  key is updated in place, a new key is appended).
* `en().localeError`, the zod English baseline formatter used by the
  richer variant for its fallback message, is likewise an external
  collaborator and is passed in as an argument (`Issue → ErrMsg`).
* A raw zod issue is the structure `Issue`; optional fields of the
  TypeScript issue object are `Option`s (or `JsValue.undefV`), and a field
  explicitly set to `undefined` is identified with an absent field.  The
  `instanceof ZodLiteral / ZodEnum / ZodUnion / ZodDiscriminatedUnion`
  probes of the richer variant are modelled by the explicit tag
  `instKind`, carried by the issue (for a discriminated union the tag
  carries the list of discriminator values that the source extracts from
  the zod class internals, which are outside this repository).
* Mappers return the `message` string of the `{ message }` object the
  source returns.
-/

/-- A JavaScript number: NaN, +Infinity, -Infinity, or a finite value
(modelled as a rational). -/
inductive JsNum where
| nan
| posInf
| negInf
| finite (q : ℚ)
deriving DecidableEq

/-- A JavaScript runtime value, as far as the mapping layer inspects it. -/
inductive JsValue where
| undefV
| nullV
| boolV (b : Bool)
| numV (q : JsNum)
| bigV (n : Int)
| strV (s : String)
| arrV (elems : List JsValue)
| objV (ctorName : Option String) (fields : List (String × JsValue))
| dateV (timeMs : JsNum)

/-- `typeof` on a `JsValue`. -/
def typeofJs : JsValue → String
| .undefV => "undefined"
| .nullV => "object"
| .boolV _ => "boolean"
| .numV _ => "number"
| .bigV _ => "bigint"
| .strV _ => "string"
| .arrV _ => "object"
| .objV _ _ => "object"
| .dateV _ => "object"

/-- `Number.isNaN`. -/
def jsNumIsNaN : JsNum → Bool
| .nan => true
| _ => false

/-- `Number.isInteger` (false on NaN and the infinities). -/
def jsNumIsInt : JsNum → Bool
| .finite q => q.den = 1
| _ => false

/-- `Number(x)` coercion, for the value kinds that can reach it here
(numbers, bigints, booleans, `null`, `undefined` and `Date` objects);
string-to-number parsing and array/object coercion are not modelled and
give NaN. -/
def numberOf : JsValue → JsNum
| .numV q => q
| .bigV n => .finite n
| .boolV b => .finite (if b then 1 else 0)
| .nullV => .finite 0
| .dateV ts => ts
| _ => .nan

/-- `toString` of a JavaScript number.  Non-integer finite values are
printed as `num/den`, not in JavaScript's decimal notation; no theorem in
this file prints a non-integer number. -/
def jsNumToString : JsNum → String
| .nan => "NaN"
| .posInf => "Infinity"
| .negInf => "-Infinity"
| .finite q => if q.den = 1 then toString q.num else toString q.num ++ "/" ++ toString q.den

/-- The string `Array.prototype.join` uses for one element: `""` for
`undefined`/`null`, `String(v)` otherwise.  Stringification of nested
arrays, plain objects and dates is not exercised by any theorem here and
is modelled by fixed placeholders. -/
def jsToJoinString : JsValue → String
| .undefV => ""
| .nullV => ""
| .strV s => s
| .numV q => jsNumToString q
| .bigV n => toString n
| .boolV b => if b then "true" else "false"
| .objV _ _ => "[object Object]"
| .arrV _ => ""
| .dateV _ => ""

/-- The options object handed to the translation function: an
insertion-ordered association list of JavaScript object properties. -/
def Bag : Type := List (String × JsValue)

/-- The external i18next translation function `t(key, options)`. -/
def TFun : Type := String → Bag → String

/-- JavaScript property assignment on an object literal being built: an
existing key keeps its position and gets the new value, a fresh key is
appended. -/
def setB : Bag → String → JsValue → Bag
| [], k, v => [(k, v)]
| (k', v') :: rest, k, v =>
  if k' = k then (k', v) :: rest else (k', v') :: setB rest k v

/-- Property lookup on the options object. -/
def getB : Bag → String → Option JsValue
| [], _ => none
| (k', v) :: rest, k => if k' = k then some v else getB rest k

/-- JavaScript object spread `{ ...b, ...entries }`: assign the entries
left to right. -/
def spreadB (b : Bag) (entries : List (String × JsValue)) : Bag :=
  entries.foldl (fun acc kv => setB acc kv.1 kv.2) b

/-- A segment of `issue.path` (zod paths hold strings and numbers). -/
inductive PathSeg where
| strSeg (s : String)
| numSeg (n : Int)
deriving DecidableEq

/-- The string a path segment contributes to `path.join(".")`. -/
def segString : PathSeg → String
| .strSeg s => s
| .numSeg n => toString n

/-- `issue.path.join(".")`. -/
def joinPath (p : List PathSeg) : String :=
  String.intercalate "." (p.map segString)

/-- An i18next namespace argument: `string | readonly string[]`. -/
inductive NsV where
| one (s : String)
| many (l : List String)
deriving DecidableEq

/-- The namespace as it appears as a value in the options object. -/
def nsToJs : NsV → JsValue
| .one s => .strV s
| .many l => .arrV (l.map JsValue.strV)

/-- An optional string issue field used as a `t` parameter value
(`undefined` when absent). -/
def optStrJs : Option String → JsValue
| some s => .strV s
| none => .undefV

/-- `isRecord` (identical in `src/unnamed/part_001` and
`src/packages/core/src/index.ts`): true for non-null values of `typeof`
`"object"` all of whose enumerable keys are own keys.  With prototype
chains unmodelled, that accepts plain objects, arrays and dates. -/
def isRecord : JsValue → Bool
| .objV _ _ => true
| .arrV _ => true
| .dateV _ => true
| _ => false

/-- The `in` operator: does the value have this own property?  Arrays own
their indices and `length`. -/
def hasField : JsValue → String → Bool
| .objV _ f, k => f.any (fun kv => kv.1 == k)
| .arrV es, k =>
  k == "length" ||
    (match k.toNat? with
     | some i => decide (i < es.length)
     | none => false)
| _, _ => false

/-- Property access `v[k]` (also covering the optional-chained
`v?.[k]`): `undefined` on a missing property or a non-object. -/
def getField : JsValue → String → JsValue
| .objV _ f, k =>
  match f.find? (fun kv => kv.1 == k) with
  | some kv => kv.2
  | none => .undefV
| .arrV es, k =>
  (match k.toNat? with
   | some i => es.getD i .undefV
   | none => if k == "length" then .numV (.finite es.length) else .undefV)
| _, _ => .undefV

/-- The own enumerable properties object spread copies out of a value
(arrays contribute their indexed elements, dates contribute nothing). -/
def spreadFields : JsValue → List (String × JsValue)
| .objV _ f => f
| .arrV es => es.enum.map (fun p => (toString p.1, p.2))
| _ => []

/-- `getKeyAndValues` (identical in `src/unnamed/part_001` and
`src/packages/core/src/index.ts`): a bare string is the key with no
values; a record supplies `key` (when a string) and `values` (when a
record); anything else falls back to the default key with no values. -/
def getKeyAndValues (param : JsValue) (defaultKey : String) : String × JsValue :=
  match param with
  | .strV s => (s, .objV none [])
  | _ =>
    if isRecord param then
      ((match hasField param "key", getField param "key" with
        | true, .strV s => s
        | _, _ => defaultKey),
       (if hasField param "values" && isRecord (getField param "values") then
          getField param "values"
        else .objV none []))
    else (defaultKey, .objV none [])

/-- `defaultNs` (both mapper files). -/
def defaultNs : String := "zod"

/-- `HandlePathOption` (both mapper files). -/
structure HandlePathOption where
  context : Option String := none
  ns : Option NsV := none
  keyPre : Option String := none

/-- The `handlePath` field of the mapper option:
`HandlePathOption | false` (the TypeScript `keyPrefix` field is `keyPre`
here, a constraint of the verification toolchain). -/
inductive HPSetting where
| off
| custom (o : HandlePathOption)

/-- `ZodI18nMapOption` (both mapper files).  The `t` field is not a
structure field: the translation function is threaded as an explicit
argument of the embedded mappers. -/
structure ZodI18nMapOption where
  ns : Option NsV := none
  handlePath : Option HPSetting := none

/-- The effective namespace: `{ ns: defaultNs, ...option }`. -/
def nsOf : Option ZodI18nMapOption → NsV
| some o => o.ns.getD (.one defaultNs)
| none => .one defaultNs

/-- The resolved path-handling configuration. -/
structure ResolvedHP where
  context : String
  ns : NsV
  keyPre : Option String

/-- The `handlePath` merge both mappers perform: `null` when the caller
passed `false`, otherwise `with_path`/option-namespace/no-key-prefix
defaults overridden by any supplied `handlePath` fields. -/
def resolveHandlePath : Option ZodI18nMapOption → Option ResolvedHP
| none => some ⟨"with_path", .one defaultNs, none⟩
| some o =>
  match o.handlePath with
  | some .off => none
  | some (.custom h) =>
    some ⟨h.context.getD "with_path", h.ns.getD (o.ns.getD (.one defaultNs)), h.keyPre⟩
  | none => some ⟨"with_path", o.ns.getD (.one defaultNs), none⟩

/-- `[handlePath.keyPrefix, issue.path.join(".")].filter(Boolean).join(".")`:
the falsy entries (`undefined` and the empty string) are dropped. -/
def joinKey (keyPre : Option String) (joined : String) : String :=
  String.intercalate "." (([keyPre.getD "", joined]).filter (fun s => s ≠ ""))

/-- The `instanceof` classification of `issue.inst` used by the richer
variant, as an explicit tag.  For a discriminated union the tag carries
the discriminator values `issue.inst.def.options.map(opt =>
opt.def.shape[issue.discriminator].def.values[0])` that the source reads
from zod class internals (external to this repository). -/
inductive InstKind where
| literalK
| enumK
| unionK
| discUnionK (discVals : List JsValue)
| otherK

/-- A raw zod issue, with the fields the two mappers read.  Absent
optional fields are `none` / `JsValue.undefV`; `exact` and `inclusive`
record the truthiness of the corresponding optional flags.  The
TypeScript fields `prefix` and `suffix` are `preVal` and `sufVal`
here, a constraint of the verification toolchain. -/
structure Issue where
  code : String
  input : JsValue := .undefV
  expected : Option String := none
  received : Option String := none
  values : List JsValue := []
  instKind : InstKind := .otherK
  keys : List JsValue := []
  format : Option String := none
  preVal : Option String := none
  sufVal : Option String := none
  minimum : JsValue := .undefV
  maximum : JsValue := .undefV
  origin : Option String := none
  exact : Bool := false
  inclusive : Bool := false
  divisor : JsValue := .undefV
  params : JsValue := .undefV
  path : Option (List PathSeg) := none
  message : Option String := none

/-- What `en().localeError(issue)` can return: a string, an object with
an optional `message`, or `undefined`. -/
inductive ErrMsg where
| strM (s : String)
| objM (m : Option String)
| undefM

/-- `(typeof errorMsg === "string" ? errorMsg : errorMsg?.message) ?? ""`
(richer variant, lines 108-109). -/
def fallbackOf : ErrMsg → String
| .strM s => s
| .objM (some m) => m
| .objM none => ""
| .undefM => ""

/-- A fully-built zod issue as the error-extraction helpers see it
(`$ZodError.issues` elements); only `message` is read. -/
structure BuiltIssue where
  message : String

/-- The `$ZodError` carried by a failed parse (`error.issues`). -/
structure ZodErrorV where
  issues : List BuiltIssue

/-- `ZodSafeParseResult<unknown>` as read by `getErrorMessage`: only the
`error` property is consulted (absent on success). -/
structure ZodSafeParseResult where
  error : Option ZodErrorV

/-- What `getErrorMessage` can throw: the unconditional `new Error()` on
a result without an error, or the TypeError JavaScript raises if
`issues[0]` is `undefined`. -/
inductive JsThrow where
| genericError
| typeError
deriving DecidableEq

/-- `getErrorMessage` (`src/unnamed/part_000`, lines 4-11): return
`parsed.error.issues[0].message` when `parsed.error` is present, else
`throw new Error()`. -/
def getErrorMessage (parsed : ZodSafeParseResult) : Except JsThrow String :=
  match parsed.error with
  | some e =>
    match e.issues with
    | i :: _ => .ok i.message
    | [] => .error .typeError
  | none => .error .genericError

/-- The observable behaviour of the `() => void` callback handed to
`getErrorMessageFromZodError`: it completes, throws a `$ZodError`, or
throws some other value. -/
inductive CallbackOutcome where
| completes
| throwsZod (e : ZodErrorV)
| throwsOther (v : JsValue)

/-- The observable result of `getErrorMessageFromZodError`: a returned
value (`undefined` modelled as `none`), a re-thrown foreign value, or
the TypeError on an issueless `$ZodError`. -/
inductive HelperResult where
| returns (v : Option String)
| reraises (v : JsValue)
| crashes

/-- `getErrorMessageFromZodError` (`src/unnamed/part_000`, lines 13-22):
run the callback; catch a thrown `$ZodError` and return its first
issue's message; re-throw anything else; return `undefined` when the
callback completes. -/
def getErrorMessageFromZodError : CallbackOutcome → HelperResult
| .completes => .returns none
| .throwsZod e =>
  match e.issues with
  | i :: _ => .returns (some i.message)
  | [] => .crashes
| .throwsOther v => .reraises v

namespace Rich

/-- `getReceivedDataType` (`src/unnamed/part_001`, lines 69-89): numbers
split into NaN / integer / float; objects split into array / null /
constructor name; everything else is its `typeof` tag. -/
def getReceivedDataType : JsValue → String
| .numV q => if jsNumIsNaN q then "NaN" else if jsNumIsInt q then "number" else "float"
| .arrV _ => "array"
| .nullV => "null"
| .dateV _ => "Date"
| .objV (some c) _ => c
| .objV none _ => "object"
| .undefV => "undefined"
| .strV _ => "string"
| .boolV _ => "boolean"
| .bigV _ => "bigint"

/-- `joinValues` (`src/unnamed/part_001`, lines 13-21): quote strings,
print bigints, and let `join` stringify the rest. -/
def joinValues (a : List JsValue) (sep : String) : String :=
  String.intercalate sep (a.map fun v =>
    match v with
    | .strV s => "'" ++ s ++ "'"
    | .bigV n => toString n
    | v => jsToJoinString v)

/-- The `path` fragment of the richer variant (`src/unnamed/part_001`,
lines 111-125): non-empty only when `(issue.path?.length ?? 0) > 0` and
path handling resolved to an object. -/
def pathFragment (t : TFun) (hp : Option ResolvedHP) (issue : Issue) : Bag :=
  match issue.path, hp with
  | some p, some h =>
    if 0 < p.length then
      [("context", .strV h.context),
       ("path", .strV (t (joinKey h.keyPre (joinPath p))
          [("ns", nsToJs h.ns), ("defaultValue", .strV (joinPath p))]))]
    else []
  | _, _ => []

/-- `makeZodI18nMap` of the richer variant (`src/unnamed/part_001`,
lines 91-327), returning the `message` of the produced `{ message }`.
`t` is the merged translation function and `localeError` the external
`en().localeError` baseline formatter. -/
def makeZodI18nMap (t : TFun) (localeError : Issue → ErrMsg)
    (option : Option ZodI18nMapOption) (issue : Issue) : String :=
  let ns : NsV := nsOf option
  let handlePath : Option ResolvedHP := resolveHandlePath option
  let message : String := fallbackOf (localeError issue)
  let path : Bag := pathFragment t handlePath issue
  match issue.code with
  | "invalid_type" =>
    match issue.input with
    | .undefV =>
      t "errors.invalid_type_received_undefined"
        (spreadB [("ns", nsToJs ns), ("defaultValue", .strV message)] path)
    | .nullV =>
      t "errors.invalid_type_received_null"
        (spreadB [("ns", nsToJs ns), ("defaultValue", .strV message)] path)
    | .numV .posInf =>
      t "errors.not_finite"
        (spreadB [("ns", nsToJs ns), ("defaultValue", .strV message)] path)
    | .dateV .nan =>
      t "errors.invalid_date"
        (spreadB [("ns", nsToJs ns), ("defaultValue", .strV message)] path)
    | _ =>
      let received := (getReceivedDataType issue.input).toLower
      t "errors.invalid_type"
        (spreadB
          [("expected", .strV (t ("types." ++ issue.expected.getD "undefined")
              [("defaultValue", optStrJs issue.expected), ("ns", nsToJs ns)])),
           ("received", .strV (t ("types." ++ received)
              [("defaultValue", .strV received), ("ns", nsToJs ns)])),
           ("ns", nsToJs ns), ("defaultValue", .strV message)] path)
  | "invalid_value" =>
    match issue.instKind with
    | .literalK =>
      t "errors.invalid_literal"
        (spreadB [("expected", .strV (joinValues issue.values " | ")),
                  ("ns", nsToJs ns), ("defaultValue", .strV message)] path)
    | .enumK =>
      t "errors.invalid_enum_value"
        (spreadB [("options", .strV (joinValues issue.values " | ")),
                  ("received", issue.input),
                  ("ns", nsToJs ns), ("defaultValue", .strV message)] path)
    | _ => message
  | "unrecognized_keys" =>
    t "errors.unrecognized_keys"
      (spreadB [("keys", .strV (joinValues issue.keys ", ")),
                ("count", .numV (.finite issue.keys.length)),
                ("ns", nsToJs ns), ("defaultValue", .strV message)] path)
  | "invalid_union" =>
    match issue.instKind with
    | .discUnionK discVals =>
      t "errors.invalid_union_discriminator"
        (spreadB [("options", .strV (joinValues discVals " | ")),
                  ("ns", nsToJs ns), ("defaultValue", .strV message)] path)
    | .unionK =>
      t "errors.invalid_union"
        (spreadB [("ns", nsToJs ns), ("defaultValue", .strV message)] path)
    | _ =>
      t "errors.invalid_union"
        (spreadB [("ns", nsToJs ns), ("defaultValue", .strV message)] path)
  | "invalid_format" =>
    if issue.format = some "date" then
      t "errors.invalid_date"
        (spreadB [("ns", nsToJs ns), ("defaultValue", .strV message)] path)
    else if issue.format = some "starts_with" then
      t "errors.invalid_string.startsWith"
        (spreadB [("startsWith", optStrJs issue.preVal),
                  ("ns", nsToJs ns), ("defaultValue", .strV message)] path)
    else if issue.format = some "ends_with" then
      t "errors.invalid_string.endsWith"
        (spreadB [("endsWith", optStrJs issue.sufVal),
                  ("ns", nsToJs ns), ("defaultValue", .strV message)] path)
    else
      t ("errors.invalid_string." ++ issue.format.getD "undefined")
        (spreadB [("validation", .strV (t ("validations." ++ issue.format.getD "undefined")
              [("defaultValue", optStrJs issue.format), ("ns", nsToJs ns)])),
                  ("ns", nsToJs ns), ("defaultValue", .strV message)] path)
  | "too_small" =>
    let minimum : JsValue :=
      if issue.origin = some "date" then .dateV (numberOf issue.minimum) else issue.minimum
    t ("errors.too_small." ++ issue.origin.getD "undefined" ++ "." ++
        (if issue.exact then "exact" else if issue.inclusive then "inclusive" else "not_inclusive"))
      (spreadB [("minimum", minimum),
                ("count", if typeofJs minimum = "number" then minimum else .undefV),
                ("ns", nsToJs ns), ("defaultValue", .strV message)] path)
  | "too_big" =>
    let maximum : JsValue :=
      if issue.origin = some "date" then .dateV (numberOf issue.maximum) else issue.maximum
    t ("errors.too_big." ++ issue.origin.getD "undefined" ++ "." ++
        (if issue.exact then "exact" else if issue.inclusive then "inclusive" else "not_inclusive"))
      (spreadB [("maximum", maximum),
                ("count", if typeofJs maximum = "number" then maximum else .undefV),
                ("ns", nsToJs ns), ("defaultValue", .strV message)] path)
  | "custom" =>
    let kv := getKeyAndValues (getField issue.params "i18n") "errors.custom"
    t kv.1
      (spreadB (spreadB (spreadB [] (spreadFields kv.2))
          [("ns", nsToJs ns), ("defaultValue", .strV message)]) path)
  | "not_multiple_of" =>
    t "errors.not_multiple_of"
      (spreadB [("multipleOf", issue.divisor),
                ("ns", nsToJs ns), ("defaultValue", .strV message)] path)
  | _ => message

/-- The exported singleton `zodI18nMap = makeZodI18nMap()`
(`src/unnamed/part_001`, line 329). -/
def zodI18nMap (t : TFun) (localeError : Issue → ErrMsg) (issue : Issue) : String :=
  makeZodI18nMap t localeError none issue

end Rich

namespace Core

/-- `joinValues` (`src/packages/core/src/index.ts`, lines 11-15): quote
strings, let `join` stringify the rest. -/
def joinValues (a : List JsValue) (sep : String) : String :=
  String.intercalate sep (a.map fun v =>
    match v with
    | .strV s => "'" ++ s ++ "'"
    | v => jsToJoinString v)

/-- The quoted-string form `JSON.stringify` produces.  Escaping of
special characters is not modelled; no value stringified by a theorem in
this file contains one. -/
def jsonQuote (s : String) : String := "\"" ++ s ++ "\""

/-- `JSON.stringify(v, jsonStringifyReplacer)` for the value kinds
`issue.expected` can hold at its only call site (a string or absent);
`JSON.stringify(undefined)` is `undefined`.  The replacer (lines 4-9),
which only rewrites bigints, has nothing to do on these values. -/
def jsonStringifyVal : JsValue → JsValue
| .undefV => .undefV
| .strV s => .strV (jsonQuote s)
| .bigV n => .strV (jsonQuote (toString n))
| v => v

/-- The `path` fragment of the simpler variant
(`src/packages/core/src/index.ts`, lines 82-96): the guard is
`issue?.path && !!handlePath`, so a present-but-empty path array (truthy
in JavaScript) still produces a fragment. -/
def pathFragment (t : TFun) (hp : Option ResolvedHP) (issue : Issue) : Bag :=
  match issue.path, hp with
  | some p, some h =>
    [("context", .strV h.context),
     ("path", .strV (t (joinKey h.keyPre (joinPath p))
        [("ns", nsToJs h.ns), ("defaultValue", .strV (joinPath p))]))]
  | _, _ => []

/-- `makeZodI18nMap` of the simpler variant
(`src/packages/core/src/index.ts`, lines 63-254), returning the
`message` of the produced `{ message }`; `t` is the merged translation
function. -/
def makeZodI18nMap (t : TFun) (option : Option ZodI18nMapOption) (issue : Issue) : String :=
  let ns : NsV := nsOf option
  let handlePath : Option ResolvedHP := resolveHandlePath option
  let message : String := issue.message.getD "Invalid value"
  let path : Bag := pathFragment t handlePath issue
  match issue.code with
  | "invalid_type" =>
    if issue.expected = some "undefined" then
      t "errors.invalid_type_received_undefined"
        (spreadB [("ns", nsToJs ns), ("defaultValue", .strV message)] path)
    else if issue.expected = some "null" then
      t "errors.invalid_type_received_null"
        (spreadB [("ns", nsToJs ns), ("defaultValue", .strV message)] path)
    else
      t "errors.invalid_type"
        (spreadB
          [("expected", .strV (t ("types." ++ issue.expected.getD "undefined")
              [("defaultValue", optStrJs issue.expected), ("ns", nsToJs ns)])),
           ("received", .strV (t ("types." ++ issue.received.getD "undefined")
              [("defaultValue", optStrJs issue.received), ("ns", nsToJs ns)])),
           ("ns", nsToJs ns), ("defaultValue", .strV message)] path)
  | "invalid_value" =>
    t "errors.invalid_literal"
      (spreadB [("expected", jsonStringifyVal (optStrJs issue.expected)),
                ("ns", nsToJs ns), ("defaultValue", .strV message)] path)
  | "unrecognized_keys" =>
    t "errors.unrecognized_keys"
      (spreadB [("keys", .strV (joinValues issue.keys ", ")),
                ("count", .numV (.finite issue.keys.length)),
                ("ns", nsToJs ns), ("defaultValue", .strV message)] path)
  | "invalid_union" =>
    t "errors.invalid_union"
      (spreadB [("ns", nsToJs ns), ("defaultValue", .strV message)] path)
  | "invalid_format" =>
    if issue.format = some "date" then
      t "errors.invalid_date"
        (spreadB [("ns", nsToJs ns), ("defaultValue", .strV message)] path)
    else if issue.format = some "starts_with" then
      t "errors.invalid_string.startsWith"
        (spreadB [("startsWith", optStrJs issue.format),
                  ("ns", nsToJs ns), ("defaultValue", .strV message)] path)
    else if issue.format = some "ends_with" then
      t "errors.invalid_string.endsWith"
        (spreadB [("endsWith", optStrJs issue.format),
                  ("ns", nsToJs ns), ("defaultValue", .strV message)] path)
    else
      t ("errors.invalid_string." ++ issue.format.getD "undefined")
        (spreadB [("validation", .strV (t ("validations." ++ issue.format.getD "undefined")
              [("defaultValue", optStrJs issue.format), ("ns", nsToJs ns)])),
                  ("ns", nsToJs ns), ("defaultValue", .strV message)] path)
  | "too_small" =>
    let minimum : JsValue :=
      if issue.origin = some "date" then .dateV (numberOf issue.minimum) else issue.minimum
    t ("errors.too_small." ++ issue.origin.getD "undefined" ++ "." ++
        (if issue.exact then "exact" else if issue.inclusive then "inclusive" else "not_inclusive"))
      (spreadB [("minimum", minimum),
                ("count", if typeofJs minimum = "number" then minimum else .undefV),
                ("ns", nsToJs ns), ("defaultValue", .strV message)] path)
  | "too_big" =>
    let maximum : JsValue :=
      if issue.origin = some "date" then .dateV (numberOf issue.maximum) else issue.maximum
    t ("errors.too_big." ++ issue.origin.getD "undefined" ++ "." ++
        (if issue.exact then "exact" else if issue.inclusive then "inclusive" else "not_inclusive"))
      (spreadB [("maximum", maximum),
                ("count", if typeofJs maximum = "number" then maximum else .undefV),
                ("ns", nsToJs ns), ("defaultValue", .strV message)] path)
  | "custom" =>
    let kv := getKeyAndValues (getField issue.params "i18n") "errors.custom"
    t kv.1
      (spreadB (spreadB (spreadB [] (spreadFields kv.2))
          [("ns", nsToJs ns), ("defaultValue", .strV message)]) path)
  | "not_multiple_of" =>
    t "errors.not_multiple_of"
      (spreadB [("multipleOf", issue.divisor),
                ("ns", nsToJs ns), ("defaultValue", .strV message)] path)
  | _ => message

/-- The exported singleton `zodI18nMap = makeZodI18nMap()`
(`src/packages/core/src/index.ts`, line 256). -/
def zodI18nMap (t : TFun) (issue : Issue) : String :=
  makeZodI18nMap t none issue

end Core

theorem spreadB_nil (b : Bag) : spreadB b [] = b := rfl

theorem spreadB_cons (b : Bag) (hd : String × JsValue) (tl : List (String × JsValue)) :
    spreadB b (hd :: tl) = spreadB (setB b hd.1 hd.2) tl := rfl

theorem getB_setB_self (b : Bag) (k : String) (v : JsValue) : getB (setB b k v) k = some v := by
  induction b with
  | nil => simp [setB, getB]
  | cons hd tl ih =>
    obtain ⟨a, w⟩ := hd
    by_cases h : a = k
    · simp [setB, h, getB]
    · simp [setB, h, getB, ih]

theorem getB_setB_ne (b : Bag) (k k' : String) (v : JsValue) (h : k' ≠ k) :
    getB (setB b k v) k' = getB b k' := by
  induction b with
  | nil => simp [setB, getB, Ne.symm h]
  | cons hd tl ih =>
    obtain ⟨a, w⟩ := hd
    by_cases hak : a = k
    · subst hak
      simp [setB, getB, Ne.symm h, ih]
    · simp [setB, hak, getB, ih]

theorem getB_spreadB_ctxpath (b : Bag) (a c : JsValue) (k : String)
    (h1 : k ≠ "context") (h2 : k ≠ "path") :
    getB (spreadB b [("context", a), ("path", c)]) k = getB b k := by
  rw [spreadB_cons, spreadB_cons, spreadB_nil]
  rw [getB_setB_ne _ _ _ _ h2, getB_setB_ne _ _ _ _ h1]

theorem rich_pathFragment_eq_or (t : TFun) (hp : Option ResolvedHP) (issue : Issue) :
    Rich.pathFragment t hp issue = [] ∨
    ∃ a c, Rich.pathFragment t hp issue = [("context", a), ("path", c)] := by
  rcases hP : issue.path with - | p <;> rcases hH : hp with - | h <;>
    simp only [Rich.pathFragment, hP, hH]
  · exact Or.inl trivial
  · exact Or.inl trivial
  · exact Or.inl trivial
  · by_cases hl : 0 < p.length
    · exact Or.inr ⟨_, _, if_pos hl⟩
    · exact Or.inl (if_neg hl)

theorem core_pathFragment_eq_or (t : TFun) (hp : Option ResolvedHP) (issue : Issue) :
    Core.pathFragment t hp issue = [] ∨
    ∃ a c, Core.pathFragment t hp issue = [("context", a), ("path", c)] := by
  rcases hP : issue.path with - | p <;> rcases hH : hp with - | h <;>
    simp only [Core.pathFragment, hP, hH]
  · exact Or.inl trivial
  · exact Or.inl trivial
  · exact Or.inl trivial
  · exact Or.inr ⟨_, _, rfl⟩

theorem getB_spreadB_rich_path (b : Bag) (t : TFun) (hp : Option ResolvedHP) (issue : Issue)
    (k : String) (h1 : k ≠ "context") (h2 : k ≠ "path") :
    getB (spreadB b (Rich.pathFragment t hp issue)) k = getB b k := by
  rcases rich_pathFragment_eq_or t hp issue with h | ⟨a, c, h⟩ <;> rw [h]
  · rfl
  · exact getB_spreadB_ctxpath b a c k h1 h2

theorem getB_spreadB_core_path (b : Bag) (t : TFun) (hp : Option ResolvedHP) (issue : Issue)
    (k : String) (h1 : k ≠ "context") (h2 : k ≠ "path") :
    getB (spreadB b (Core.pathFragment t hp issue)) k = getB b k := by
  rcases core_pathFragment_eq_or t hp issue with h | ⟨a, c, h⟩ <;> rw [h]
  · rfl
  · exact getB_spreadB_ctxpath b a c k h1 h2

/-- A probe renderer that returns the key it was asked for. -/
def tKey : TFun := fun k _ => k

/-- A probe renderer that reports whether a `context` parameter was
passed. -/
def tCtx : TFun := fun _ b =>
  match getB b "context" with
  | some _ => "HAS_CONTEXT"
  | none => "NO_CONTEXT"

/-- A probe renderer that reports the `ns` parameter it received. -/
def tShowNs : TFun := fun _ b =>
  match getB b "ns" with
  | some (.strV s) => s
  | _ => "none"

/-- A probe renderer that reports its key and the `x` parameter it
received. -/
def tShowX : TFun := fun k b =>
  k ++ "|" ++ (match getB b "x" with | some (.strV s) => s | _ => "?")

/-- A stand-in for the external `en().localeError` baseline formatter
that returns `undefined`. -/
def leU : Issue → ErrMsg := fun _ => .undefM

/-- C1: in the richer variant every `invalid_type` issue whose input is
`undefined` renders with key `errors.invalid_type_received_undefined`,
whatever its other fields; the simpler variant however keys this branch
off `expected === "undefined"`, so the same issue with `expected`
`"string"` renders the generic `errors.invalid_type` key there —
evaluated at that failing input with the key-returning probe renderer. -/
theorem c1_invalid_type_undefined_key (t : TFun) (le : Issue → ErrMsg)
    (opt : Option ZodI18nMapOption) (issue : Issue)
    (hcode : issue.code = "invalid_type") (hinput : issue.input = .undefV) :
    (Rich.makeZodI18nMap t le opt issue =
      t "errors.invalid_type_received_undefined"
        (spreadB [("ns", nsToJs (nsOf opt)), ("defaultValue", .strV (fallbackOf (le issue)))]
          (Rich.pathFragment t (resolveHandlePath opt) issue))) ∧
    Core.makeZodI18nMap tKey none
        { code := "invalid_type", input := .undefV, expected := some "string" } =
      "errors.invalid_type" :=
  ⟨by simp only [Rich.makeZodI18nMap, hcode, hinput], rfl⟩

/-- C1 witness: a concrete `invalid_type` issue with `undefined` input
rendered by the richer variant through the key-returning probe. -/
theorem c1_invalid_type_undefined_key_witness :
    Rich.makeZodI18nMap tKey leU none
        { code := "invalid_type", input := .undefV, expected := some "string" } =
      "errors.invalid_type_received_undefined" :=
  ((c1_invalid_type_undefined_key tKey leU none
      { code := "invalid_type", input := .undefV, expected := some "string" } rfl rfl).1).trans rfl

/-- C2 counterexample: with default configuration (path handling
enabled) and a present-but-empty `issue.path`, the simpler variant's
fragment is non-empty — a `context` parameter reaches the renderer —
while the richer variant passes none, so "the fragment is non-empty
exactly when path handling is enabled and issue.path is non-empty" is
false of the simpler variant. -/
theorem c2_core_empty_path_counterexample :
    Core.pathFragment tKey (resolveHandlePath none) { code := "custom", path := some [] } ≠ [] ∧
    Core.makeZodI18nMap tCtx none { code := "custom", path := some [] } = "HAS_CONTEXT" ∧
    Rich.makeZodI18nMap tCtx leU none { code := "custom", path := some [] } = "NO_CONTEXT" :=
  ⟨by simp [Core.pathFragment, resolveHandlePath], rfl, rfl⟩

/-- C2 (amended): the path fragment is empty whenever path handling is
disabled; with path handling enabled, the richer variant's fragment is
non-empty exactly when `issue.path` is non-empty, while the simpler
variant's is non-empty exactly when `issue.path` is present (even
empty); a non-empty fragment is the configured context tag together with
the rendering of the optional-key-prefix-dot-joined path, defaulting to
the dot-joined path, under the path namespace. -/
theorem c2_path_fragment_characterization (t : TFun) (h : ResolvedHP) (issue : Issue) :
    Rich.pathFragment t none issue = [] ∧
    Core.pathFragment t none issue = [] ∧
    Rich.pathFragment t (some h) issue =
      (match issue.path with
       | some p =>
         if 0 < p.length then
           [("context", JsValue.strV h.context),
            ("path", JsValue.strV (t (joinKey h.keyPre (joinPath p))
               [("ns", nsToJs h.ns), ("defaultValue", JsValue.strV (joinPath p))]))]
         else []
       | none => []) ∧
    Core.pathFragment t (some h) issue =
      (match issue.path with
       | some p =>
         [("context", JsValue.strV h.context),
          ("path", JsValue.strV (t (joinKey h.keyPre (joinPath p))
             [("ns", nsToJs h.ns), ("defaultValue", JsValue.strV (joinPath p))]))]
       | none => []) := by
  refine ⟨?_, ?_, ?_, ?_⟩ <;> rcases hP : issue.path with - | p <;>
    simp only [Rich.pathFragment, Core.pathFragment, hP]

/-- C3: for `invalid_format` with format `starts_with` (resp.
`ends_with`) the richer variant renders `errors.invalid_string.startsWith`
with `startsWith` equal to the issue's prefix value (resp. `endsWith` =
suffix value); the simpler variant renders the same keys but passes the
format tag itself — the literal strings `"starts_with"`/`"ends_with"` —
as the parameter, evaluated here at the failing inputs. -/
theorem c3_invalid_format_starts_ends_with (t : TFun) (le : Issue → ErrMsg) :
    Core.makeZodI18nMap t none
        { code := "invalid_format", format := some "starts_with", preVal := some "abc" } =
      t "errors.invalid_string.startsWith"
        [("startsWith", .strV "starts_with"), ("ns", .strV "zod"),
         ("defaultValue", .strV "Invalid value")] ∧
    Core.makeZodI18nMap t none
        { code := "invalid_format", format := some "ends_with", sufVal := some "xyz" } =
      t "errors.invalid_string.endsWith"
        [("endsWith", .strV "ends_with"), ("ns", .strV "zod"),
         ("defaultValue", .strV "Invalid value")] ∧
    Rich.makeZodI18nMap t le none
        { code := "invalid_format", format := some "starts_with", preVal := some "abc" } =
      t "errors.invalid_string.startsWith"
        [("startsWith", .strV "abc"), ("ns", .strV "zod"),
         ("defaultValue", .strV (fallbackOf (le
           { code := "invalid_format", format := some "starts_with", preVal := some "abc" })))] ∧
    Rich.makeZodI18nMap t le none
        { code := "invalid_format", format := some "ends_with", sufVal := some "xyz" } =
      t "errors.invalid_string.endsWith"
        [("endsWith", .strV "xyz"), ("ns", .strV "zod"),
         ("defaultValue", .strV (fallbackOf (le
           { code := "invalid_format", format := some "ends_with", sufVal := some "xyz" })))] :=
  ⟨rfl, rfl, rfl, rfl⟩

/-- C4 counterexample: an enum-kind `invalid_value` issue rendered by
the simpler variant produces key `errors.invalid_literal`, not the
`errors.invalid_enum_value` the claim states (the simpler variant has no
enum branch), evaluated with the key-returning probe renderer. -/
theorem c4_core_enum_renders_invalid_literal :
    Core.makeZodI18nMap tKey none
        { code := "invalid_value", instKind := .enumK, values := [.strV "a", .strV "b"],
          input := .strV "c" } = "errors.invalid_literal" ∧
    "errors.invalid_literal" ≠ "errors.invalid_enum_value" :=
  ⟨rfl, by decide⟩

/-- C4 (amended): in the richer variant a literal-kind `invalid_value`
issue renders `errors.invalid_literal` with `expected` the joined quoted
allowed values, an enum-kind one renders `errors.invalid_enum_value`
with `options` the joined quoted values and `received` the raw input,
and any other kind passes the fallback message through; the simpler
variant renders every `invalid_value` issue as `errors.invalid_literal`
with `expected` the JSON-stringified `issue.expected`. -/
theorem c4_invalid_value_cases (t : TFun) (le : Issue → ErrMsg)
    (opt : Option ZodI18nMapOption) (issue : Issue) (hcode : issue.code = "invalid_value") :
    (Rich.makeZodI18nMap t le opt issue =
      match issue.instKind with
      | .literalK =>
        t "errors.invalid_literal"
          (spreadB [("expected", .strV (Rich.joinValues issue.values " | ")),
                    ("ns", nsToJs (nsOf opt)), ("defaultValue", .strV (fallbackOf (le issue)))]
            (Rich.pathFragment t (resolveHandlePath opt) issue))
      | .enumK =>
        t "errors.invalid_enum_value"
          (spreadB [("options", .strV (Rich.joinValues issue.values " | ")),
                    ("received", issue.input),
                    ("ns", nsToJs (nsOf opt)), ("defaultValue", .strV (fallbackOf (le issue)))]
            (Rich.pathFragment t (resolveHandlePath opt) issue))
      | _ => fallbackOf (le issue)) ∧
    Core.makeZodI18nMap t opt issue =
      t "errors.invalid_literal"
        (spreadB [("expected", Core.jsonStringifyVal (optStrJs issue.expected)),
                  ("ns", nsToJs (nsOf opt)),
                  ("defaultValue", .strV (issue.message.getD "Invalid value"))]
          (Core.pathFragment t (resolveHandlePath opt) issue)) ∧
    getB (spreadB [("expected", .strV (Rich.joinValues issue.values " | ")),
                   ("ns", nsToJs (nsOf opt)), ("defaultValue", .strV (fallbackOf (le issue)))]
           (Rich.pathFragment t (resolveHandlePath opt) issue)) "expected" =
      some (.strV (Rich.joinValues issue.values " | ")) ∧
    getB (spreadB [("options", .strV (Rich.joinValues issue.values " | ")),
                   ("received", issue.input),
                   ("ns", nsToJs (nsOf opt)), ("defaultValue", .strV (fallbackOf (le issue)))]
           (Rich.pathFragment t (resolveHandlePath opt) issue)) "options" =
      some (.strV (Rich.joinValues issue.values " | ")) ∧
    getB (spreadB [("options", .strV (Rich.joinValues issue.values " | ")),
                   ("received", issue.input),
                   ("ns", nsToJs (nsOf opt)), ("defaultValue", .strV (fallbackOf (le issue)))]
           (Rich.pathFragment t (resolveHandlePath opt) issue)) "received" =
      some issue.input := by
  refine ⟨?_, ?_, ?_, ?_, ?_⟩
  · simp only [Rich.makeZodI18nMap, hcode]
  · simp only [Core.makeZodI18nMap, hcode]
  · rw [getB_spreadB_rich_path _ _ _ _ _ (by decide) (by decide)]
    simp [getB]
  · rw [getB_spreadB_rich_path _ _ _ _ _ (by decide) (by decide)]
    simp [getB]
  · rw [getB_spreadB_rich_path _ _ _ _ _ (by decide) (by decide)]
    simp [getB]

/-- C4 witness: a concrete enum-kind issue rendered by the richer
variant through the key-returning probe. -/
theorem c4_invalid_value_cases_witness :
    Rich.makeZodI18nMap tKey leU none
        { code := "invalid_value", instKind := .enumK, values := [.strV "a", .strV "b"],
          input := .strV "c" } = "errors.invalid_enum_value" :=
  ((c4_invalid_value_cases tKey leU none
      { code := "invalid_value", instKind := .enumK, values := [.strV "a", .strV "b"],
        input := .strV "c" } rfl).1).trans rfl

/-- C5: both variants render a `too_small` issue with key
`errors.too_small.{origin}.{exact|inclusive|not_inclusive}` — `exact`
tested first, then `inclusive` — where the `minimum` parameter is the
issue's minimum converted to a date when the origin is `"date"`, and the
`count` parameter is bound to that (possibly converted) minimum exactly
when it is a number, and to `undefined` otherwise. -/
theorem c5_too_small_key_and_params (t : TFun) (le : Issue → ErrMsg)
    (opt : Option ZodI18nMapOption) (issue : Issue) (conv : JsValue)
    (hcode : issue.code = "too_small")
    (hconv : conv =
      if issue.origin = some "date" then .dateV (numberOf issue.minimum) else issue.minimum) :
    Rich.makeZodI18nMap t le opt issue =
      t ("errors.too_small." ++ issue.origin.getD "undefined" ++ "." ++
          (if issue.exact then "exact"
           else if issue.inclusive then "inclusive" else "not_inclusive"))
        (spreadB [("minimum", conv),
                  ("count", if typeofJs conv = "number" then conv else .undefV),
                  ("ns", nsToJs (nsOf opt)), ("defaultValue", .strV (fallbackOf (le issue)))]
          (Rich.pathFragment t (resolveHandlePath opt) issue)) ∧
    Core.makeZodI18nMap t opt issue =
      t ("errors.too_small." ++ issue.origin.getD "undefined" ++ "." ++
          (if issue.exact then "exact"
           else if issue.inclusive then "inclusive" else "not_inclusive"))
        (spreadB [("minimum", conv),
                  ("count", if typeofJs conv = "number" then conv else .undefV),
                  ("ns", nsToJs (nsOf opt)),
                  ("defaultValue", .strV (issue.message.getD "Invalid value"))]
          (Core.pathFragment t (resolveHandlePath opt) issue)) ∧
    getB (spreadB [("minimum", conv),
                   ("count", if typeofJs conv = "number" then conv else .undefV),
                   ("ns", nsToJs (nsOf opt)), ("defaultValue", .strV (fallbackOf (le issue)))]
           (Rich.pathFragment t (resolveHandlePath opt) issue)) "minimum" = some conv ∧
    getB (spreadB [("minimum", conv),
                   ("count", if typeofJs conv = "number" then conv else .undefV),
                   ("ns", nsToJs (nsOf opt)), ("defaultValue", .strV (fallbackOf (le issue)))]
           (Rich.pathFragment t (resolveHandlePath opt) issue)) "count" =
      some (if typeofJs conv = "number" then conv else .undefV) ∧
    getB (spreadB [("minimum", conv),
                   ("count", if typeofJs conv = "number" then conv else .undefV),
                   ("ns", nsToJs (nsOf opt)),
                   ("defaultValue", .strV (issue.message.getD "Invalid value"))]
           (Core.pathFragment t (resolveHandlePath opt) issue)) "minimum" = some conv ∧
    getB (spreadB [("minimum", conv),
                   ("count", if typeofJs conv = "number" then conv else .undefV),
                   ("ns", nsToJs (nsOf opt)),
                   ("defaultValue", .strV (issue.message.getD "Invalid value"))]
           (Core.pathFragment t (resolveHandlePath opt) issue)) "count" =
      some (if typeofJs conv = "number" then conv else .undefV) := by
  subst hconv
  refine ⟨?_, ?_, ?_, ?_, ?_, ?_⟩
  · simp only [Rich.makeZodI18nMap, hcode]
  · simp only [Core.makeZodI18nMap, hcode]
  · rw [getB_spreadB_rich_path _ _ _ _ _ (by decide) (by decide)]
    simp [getB]
  · rw [getB_spreadB_rich_path _ _ _ _ _ (by decide) (by decide)]
    simp [getB]
  · rw [getB_spreadB_core_path _ _ _ _ _ (by decide) (by decide)]
    simp [getB]
  · rw [getB_spreadB_core_path _ _ _ _ _ (by decide) (by decide)]
    simp [getB]

/-- C5 witness: `too_small` with origin `"string"`, `inclusive`, and
minimum 3, rendered by both variants through the key-returning probe. -/
theorem c5_too_small_key_and_params_witness :
    Rich.makeZodI18nMap tKey leU none
        { code := "too_small", origin := some "string", inclusive := true,
          minimum := .numV (.finite 3) } = "errors.too_small.string.inclusive" ∧
    Core.makeZodI18nMap tKey none
        { code := "too_small", origin := some "string", inclusive := true,
          minimum := .numV (.finite 3) } = "errors.too_small.string.inclusive" :=
  ⟨((c5_too_small_key_and_params tKey leU none
      { code := "too_small", origin := some "string", inclusive := true,
        minimum := .numV (.finite 3) } (.numV (.finite 3)) rfl rfl).1).trans rfl,
   ((c5_too_small_key_and_params tKey leU none
      { code := "too_small", origin := some "string", inclusive := true,
        minimum := .numV (.finite 3) } (.numV (.finite 3)) rfl rfl).2.1).trans rfl⟩

/-- C6 counterexample: a custom issue supplying `values = { ns:
"OVERRIDE" }` still renders with the configured namespace `"zod"` — the
later `ns` entry of the options literal overrides the supplied value, so
"the supplied values override defaults" is false (observed with a probe
renderer that reports the `ns` parameter it received). -/
theorem c6_values_overridden_counterexample :
    Rich.makeZodI18nMap tShowNs leU none
        { code := "custom",
          params := .objV none [("i18n", .objV none
            [("key", .strV "my.key"), ("values", .objV none [("ns", .strV "OVERRIDE")])])] } =
      "zod" ∧
    "zod" ≠ "OVERRIDE" :=
  ⟨rfl, by decide⟩

/-- C6 (amended): a custom issue with a record `params.i18n` renders
with the key `getKeyAndValues` extracts (defaulting to `errors.custom`)
over a parameter bag built by spreading the supplied values first and
the `ns`/`defaultValue`/path entries after them, so those later entries
override any same-named supplied values; supplied values take effect
exactly for the remaining parameter names. -/
theorem c6_custom_spread_order (t : TFun) (le : Issue → ErrMsg)
    (opt : Option ZodI18nMapOption) (issue : Issue) (hcode : issue.code = "custom") :
    ∃ b : Bag,
      Rich.makeZodI18nMap t le opt issue =
        t (getKeyAndValues (getField issue.params "i18n") "errors.custom").1 b ∧
      b = spreadB (spreadB (spreadB []
            (spreadFields (getKeyAndValues (getField issue.params "i18n") "errors.custom").2))
            [("ns", nsToJs (nsOf opt)), ("defaultValue", .strV (fallbackOf (le issue)))])
          (Rich.pathFragment t (resolveHandlePath opt) issue) ∧
      getB b "ns" = some (nsToJs (nsOf opt)) ∧
      getB b "defaultValue" = some (.strV (fallbackOf (le issue))) ∧
      ∀ k, k ≠ "ns" → k ≠ "defaultValue" → k ≠ "context" → k ≠ "path" →
        getB b k = getB (spreadB []
          (spreadFields (getKeyAndValues (getField issue.params "i18n") "errors.custom").2)) k := by
  refine ⟨_, ?_, rfl, ?_, ?_, ?_⟩
  · simp only [Rich.makeZodI18nMap, hcode]
  · rw [getB_spreadB_rich_path _ _ _ _ _ (by decide) (by decide)]
    rw [spreadB_cons, spreadB_cons, spreadB_nil]
    dsimp only
    rw [getB_setB_ne _ _ _ _ (by decide)]
    exact getB_setB_self _ _ _
  · rw [getB_spreadB_rich_path _ _ _ _ _ (by decide) (by decide)]
    rw [spreadB_cons, spreadB_cons, spreadB_nil]
    dsimp only
    exact getB_setB_self _ _ _
  · intro k h1 h2 h3 h4
    rw [getB_spreadB_rich_path _ _ _ _ _ h3 h4]
    rw [spreadB_cons, spreadB_cons, spreadB_nil]
    dsimp only
    rw [getB_setB_ne _ _ _ _ h2, getB_setB_ne _ _ _ _ h1]

/-- A concrete custom issue with `params.i18n = { key: "my.key",
values: { x: "1" } }`. -/
def c6ValuesIssue : Issue :=
  { code := "custom",
    params := .objV none [("i18n", .objV none
      [("key", .strV "my.key"), ("values", .objV none [("x", .strV "1")])])] }

/-- C6 witness: the concrete custom issue renders with key `my.key` and
its supplied `x` value visible to the renderer. -/
theorem c6_custom_spread_order_witness :
    Rich.makeZodI18nMap tShowX leU none c6ValuesIssue = "my.key|1" := by
  obtain ⟨b, h1, h2, -, -, -⟩ := c6_custom_spread_order tShowX leU none c6ValuesIssue rfl
  rw [h1, h2]
  rfl

/-- C7: `getErrorMessage` returns the first issue's message of the
result's error when that error is present (and the error has a first
issue), and throws the unconditional generic error when the result
carries no error. -/
theorem c7_getErrorMessage_spec (parsed : ZodSafeParseResult) :
    (∀ (e : ZodErrorV) (i : BuiltIssue) (rest : List BuiltIssue),
        parsed.error = some e → e.issues = i :: rest →
        getErrorMessage parsed = .ok i.message) ∧
    (parsed.error = none → getErrorMessage parsed = .error .genericError) := by
  constructor
  · rintro e i rest he hi
    simp [getErrorMessage, he, hi]
  · intro h
    simp [getErrorMessage, h]

/-- C7 witness: a one-issue error yields that issue's message; a result
without an error throws the generic error. -/
theorem c7_getErrorMessage_spec_witness :
    getErrorMessage ⟨some ⟨[⟨"boom"⟩]⟩⟩ = .ok "boom" ∧
    getErrorMessage ⟨none⟩ = .error .genericError :=
  ⟨(c7_getErrorMessage_spec ⟨some ⟨[⟨"boom"⟩]⟩⟩).1 ⟨[⟨"boom"⟩]⟩ ⟨"boom"⟩ [] rfl rfl,
   (c7_getErrorMessage_spec ⟨none⟩).2 rfl⟩

/-- C8: `getErrorMessageFromZodError` returns the first issue's message
of a thrown `$ZodError`, and re-raises any other thrown value
unchanged. -/
theorem c8_getErrorMessageFromZodError_catch (outcome : CallbackOutcome) :
    (∀ (e : ZodErrorV) (i : BuiltIssue) (rest : List BuiltIssue),
        outcome = .throwsZod e → e.issues = i :: rest →
        getErrorMessageFromZodError outcome = .returns (some i.message)) ∧
    (∀ v : JsValue, outcome = .throwsOther v →
        getErrorMessageFromZodError outcome = .reraises v) := by
  constructor
  · rintro e i rest ho hi
    simp [getErrorMessageFromZodError, ho, hi]
  · intro v ho
    simp [getErrorMessageFromZodError, ho]

/-- C8 witness: a thrown one-issue `$ZodError` yields its message; a
thrown string is re-raised unchanged. -/
theorem c8_getErrorMessageFromZodError_catch_witness :
    getErrorMessageFromZodError (.throwsZod ⟨[⟨"m"⟩]⟩) = .returns (some "m") ∧
    getErrorMessageFromZodError (.throwsOther (.strV "oops")) = .reraises (.strV "oops") :=
  ⟨(c8_getErrorMessageFromZodError_catch (.throwsZod ⟨[⟨"m"⟩]⟩)).1 ⟨[⟨"m"⟩]⟩ ⟨"m"⟩ [] rfl rfl,
   (c8_getErrorMessageFromZodError_catch (.throwsOther (.strV "oops"))).2 (.strV "oops") rfl⟩

/-- C9: when the callback completes without throwing,
`getErrorMessageFromZodError` returns `undefined` — it neither throws
nor returns a string. -/
theorem c9_completed_callback_returns_undefined :
    getErrorMessageFromZodError .completes = .returns none := rfl

/-- C10: a custom issue whose `params.i18n` is a bare string uses that
string directly as the message key with an empty extra-values bag, and
a `params.i18n` that is neither a string nor a record yields the
default key `errors.custom` with empty values. -/
theorem c10_getKeyAndValues_string_and_default (t : TFun) (le : Issue → ErrMsg)
    (opt : Option ZodI18nMapOption) (issue : Issue) (s : String)
    (hcode : issue.code = "custom") (hi : getField issue.params "i18n" = .strV s) :
    getKeyAndValues (getField issue.params "i18n") "errors.custom" = (s, .objV none []) ∧
    Rich.makeZodI18nMap t le opt issue =
      t s (spreadB (spreadB (spreadB [] (spreadFields (JsValue.objV none [])))
            [("ns", nsToJs (nsOf opt)), ("defaultValue", .strV (fallbackOf (le issue)))])
          (Rich.pathFragment t (resolveHandlePath opt) issue)) ∧
    ∀ p : JsValue, typeofJs p ≠ "string" → isRecord p = false →
      getKeyAndValues p "errors.custom" = ("errors.custom", .objV none []) := by
  refine ⟨?_, ?_, ?_⟩
  · rw [hi]
    rfl
  · simp only [Rich.makeZodI18nMap, hcode, hi]
    rfl
  · intro p hs hr
    cases p <;> simp_all [typeofJs, isRecord, getKeyAndValues]

/-- C10 witness: a concrete custom issue whose `params.i18n` is the
string `"my.key"`, plus a numeric `params.i18n` falling back to
`errors.custom`. -/
theorem c10_getKeyAndValues_string_and_default_witness :
    getKeyAndValues (getField (JsValue.objV none [("i18n", .strV "my.key")]) "i18n")
        "errors.custom" = ("my.key", .objV none []) ∧
    Rich.makeZodI18nMap tKey leU none
        { code := "custom", params := .objV none [("i18n", .strV "my.key")] } = "my.key" ∧
    getKeyAndValues (.numV (.finite 5)) "errors.custom" = ("errors.custom", .objV none []) := by
  obtain ⟨h1, h2, h3⟩ := c10_getKeyAndValues_string_and_default tKey leU none
    { code := "custom", params := .objV none [("i18n", .strV "my.key")] } "my.key" rfl rfl
  exact ⟨h1, h2.trans rfl, h3 (.numV (.finite 5)) (by decide) rfl⟩
